import Mathlib

/- Shallow embedding of the order/stock transactional core of an e-commerce
backend (FastAPI + SQLAlchemy service layer).  The committed database state
is modelled as lists of rows; each service call is a function from states to
an error-or-result outcome.  The commit/rollback discipline of the session
dependency (get_db) is modelled by runTx, which keeps the original state
whenever the transaction body ends in an error. -/

namespace ECommerceSpec

/-- Movement types of the stock ledger (models StockMovementType:
ENTRADA = inbound, SALIDA = outbound, AJUSTE = adjustment). -/
inductive StockMovementType
  | entrada
  | salida
  | ajuste
deriving DecidableEq, Repr

/-- Order lifecycle states (models OrderStatus). -/
inductive OrderStatus
  | pending
  | confirmed
  | shipped
  | delivered
  | cancelled
deriving DecidableEq, Repr

/-- Product row: the fields read or written by the modelled services
(id, price, stock_actual).  The source stores monetary values as exact
two-decimal Decimal numbers; the only monetary operations of the core are
multiplication by an integer quantity and addition, so money is modelled as
an integer amount of the smallest currency unit.  Stock is an integer. -/
structure Product where
  id : Nat
  price : Int
  stock_actual : Int
deriving DecidableEq, Repr

/-- Stock movement row (models StockMovement). -/
structure StockMovement where
  product_id : Nat
  movement_type : StockMovementType
  quantity : Int
  stock_before : Int
  stock_after : Int
  reason : String
  notes : String
deriving DecidableEq, Repr

/-- Order line item row (models OrderItem). -/
structure OrderItem where
  product_id : Nat
  quantity : Int
  unit_price : Int
  subtotal : Int
deriving DecidableEq, Repr

/-- Order row together with its owned line items (models Order with its
order_items relationship). -/
structure Order where
  id : Nat
  order_number : String
  user_id : Nat
  status : OrderStatus
  subtotal : Int
  tax : Int
  shipping_cost : Int
  total : Int
  order_items : List OrderItem
deriving DecidableEq, Repr

/-- Committed database state: the three tables the core mutates. -/
structure DBState where
  products : List Product
  orders : List Order
  movements : List StockMovement
deriving DecidableEq, Repr

/-- Service level failures surfaced by the modelled calls
(HTTP 404 / insufficient-stock rejections). -/
inductive ServiceError
  | notFound (id : Nat)
  | insufficientStock (product_id : Nat)
deriving DecidableEq, Repr

/-- Request payload for one order line (models OrderItemCreate; the schema
constrains quantity to be strictly positive). -/
structure OrderItemCreate where
  product_id : Nat
  quantity : Int
deriving DecidableEq, Repr

/-- Request payload for order creation (models OrderCreate; shipping fields
are irrelevant to the verified properties and omitted). -/
structure OrderCreate where
  items : List OrderItemCreate
deriving DecidableEq, Repr

/-- Request payload for stock movement registration
(models StockMovementCreate; quantity is schema-constrained positive). -/
structure StockMovementCreate where
  product_id : Nat
  movement_type : StockMovementType
  quantity : Int
  reason : String
  notes : String
deriving DecidableEq, Repr

deriving instance DecidableEq for Except

/-- Models ProductRepository.get_by_id / the select by primary key. -/
def findProduct (s : DBState) (pid : Nat) : Option Product :=
  s.products.find? (fun p => p.id == pid)

/-- Models OrderRepository.get_by_id. -/
def findOrder (s : DBState) (oid : Nat) : Option Order :=
  s.orders.find? (fun o => o.id == oid)

/-- Models the SQL `update(Product).where(Product.id == pid)
.values(stock_actual = v)` statement. -/
def updateStock (s : DBState) (pid : Nat) (v : Int) : DBState :=
  { s with
    products := s.products.map
      (fun p => if p.id = pid then { p with stock_actual := v } else p) }

/-- Models `db.add(stock_movement)`: the ledger is append-only. -/
def addMovement (s : DBState) (m : StockMovement) : DBState :=
  { s with movements := s.movements ++ [m] }

/-- Models the order number generated in create_order:
`ORD-<timestamp>-<user_id>`; the timestamp string is passed in. -/
def orderNumberFor (now : String) (userId : Nat) : String :=
  "ORD-" ++ now ++ "-" ++ toString userId

/-- Reason text of the outbound movements written by create_order. -/
def saleReason (orderNumber : String) : String :=
  "Venta - Orden " ++ orderNumber

/-- Notes text of the outbound movements written by create_order. -/
def saleNotes (userId : Nat) : String :=
  "Orden de usuario " ++ toString userId

/-- Reason text of the inbound movements written on cancellation. -/
def cancelReason (orderNumber : String) : String :=
  "Cancelación Orden " ++ orderNumber

/-- Notes text of the inbound movements written on cancellation. -/
def cancelNotes : String :=
  "Devolución de stock por cancelación de orden"

/-- Models the per-line loop of OrderService.create_order: validates the
product and its stock, accumulates the line item and the subtotal, executes
the stock decrement and appends the outbound ledger entry.  All of this
happens on the tentative transaction state; an error aborts the whole
transaction, so the error outcome carries no state. -/
def create_order_items (orderNumber : String) (userId : Nat) :
    DBState → List OrderItemCreate →
      Except ServiceError (DBState × List OrderItem × Int)
  | s, [] => .ok (s, [], 0)
  | s, item :: rest =>
    match findProduct s item.product_id with
    | none => .error (.notFound item.product_id)
    | some product =>
      if product.stock_actual < item.quantity then
        .error (.insufficientStock item.product_id)
      else
        let unit_price : Int := product.price
        let item_subtotal : Int := unit_price * item.quantity
        let order_item : OrderItem :=
          { product_id := product.id
            quantity := item.quantity
            unit_price := unit_price
            subtotal := item_subtotal }
        let stock_before := product.stock_actual
        let stock_after := stock_before - item.quantity
        let s1 := updateStock s product.id stock_after
        let s2 := addMovement s1
          { product_id := product.id
            movement_type := .salida
            quantity := item.quantity
            stock_before := stock_before
            stock_after := stock_after
            reason := saleReason orderNumber
            notes := saleNotes userId }
        match create_order_items orderNumber userId s2 rest with
        | .error e => .error e
        | .ok (sf, its, sub) => .ok (sf, order_item :: its, item_subtotal + sub)

/-- Models OrderService.create_order: runs the per-line loop, computes the
totals (tax and shipping are fixed at zero), and persists the PENDING order
with its items.  The fresh order id models the autoincrement primary key. -/
def create_order (s : DBState) (userId : Nat) (now : String)
    (order_in : OrderCreate) : Except ServiceError (Order × DBState) :=
  let order_number := orderNumberFor now userId
  match create_order_items order_number userId s order_in.items with
  | .error e => .error e
  | .ok (s1, db_items, subtotal) =>
    let tax : Int := 0
    let shipping_cost : Int := 0
    let total := subtotal + tax + shipping_cost
    let order : Order :=
      { id := s1.orders.length + 1
        order_number := order_number
        user_id := userId
        status := .pending
        subtotal := subtotal
        tax := tax
        shipping_cost := shipping_cost
        total := total
        order_items := db_items }
    .ok (order, { s1 with orders := s1.orders ++ [order] })

/-- Models the commit/rollback discipline of the get_db dependency: on an
error the session is rolled back, so the committed state is unchanged; on
success the tentative state is committed. -/
def runTx {α : Type} (s : DBState) (tx : Except ServiceError (α × DBState)) :
    Except ServiceError α × DBState :=
  match tx with
  | .error e => (.error e, s)
  | .ok (a, s1) => (.ok a, s1)

/-- Models the per-item restock step inside OrderService.update_status:
fetch the product of the line item; if it no longer exists do nothing,
otherwise append the inbound movement and increment the product stock. -/
def restock_item (orderNumber : String) (s : DBState) (item : OrderItem) :
    DBState :=
  match findProduct s item.product_id with
  | none => s
  | some product =>
    let s1 := addMovement s
      { product_id := item.product_id
        movement_type := .entrada
        quantity := item.quantity
        stock_before := product.stock_actual
        stock_after := product.stock_actual + item.quantity
        reason := cancelReason orderNumber
        notes := cancelNotes }
    updateStock s1 item.product_id (product.stock_actual + item.quantity)

/-- Models the `order.status = new_status` mutation followed by commit. -/
def set_order_status (s : DBState) (oid : Nat) (st : OrderStatus) : DBState :=
  { s with
    orders := s.orders.map
      (fun o => if o.id = oid then { o with status := st } else o) }

/-- Models OrderService.update_status: 404 when the order is missing; when
the new status is CANCELLED and the current status is not DELIVERED, every
line item is restocked (skipping items whose product no longer exists);
finally the status field is set to the requested value unconditionally. -/
def update_status (s : DBState) (order_id : Nat) (new_status : OrderStatus) :
    Except ServiceError (Order × DBState) :=
  match findOrder s order_id with
  | none => .error (.notFound order_id)
  | some order =>
    let current_status := order.status
    let s1 :=
      if new_status = .cancelled ∧ current_status ≠ .delivered then
        order.order_items.foldl (restock_item order.order_number) s
      else s
    let s2 := set_order_status s1 order_id new_status
    .ok ({ order with status := new_status }, s2)

/-- Models StockRepository.create_movement: computes stock_after from the
movement type (inbound and adjustment add, outbound subtracts), appends the
movement row and updates the product stock in the same transaction. -/
def create_movement (s : DBState) (movement_in : StockMovementCreate)
    (current_stock : Int) : StockMovement × DBState :=
  let stock_after :=
    match movement_in.movement_type with
    | .entrada => current_stock + movement_in.quantity
    | .salida => current_stock - movement_in.quantity
    | .ajuste => current_stock + movement_in.quantity
  let db_movement : StockMovement :=
    { product_id := movement_in.product_id
      movement_type := movement_in.movement_type
      quantity := movement_in.quantity
      stock_before := current_stock
      stock_after := stock_after
      reason := movement_in.reason
      notes := movement_in.notes }
  (db_movement,
    updateStock (addMovement s db_movement) movement_in.product_id stock_after)

/-- Models StockService.register_movement: 404 when the product is missing,
insufficient-stock rejection for an outbound movement larger than the
current stock, otherwise delegates to create_movement. -/
def register_movement (s : DBState) (movement_in : StockMovementCreate) :
    Except ServiceError (StockMovement × DBState) :=
  match findProduct s movement_in.product_id with
  | none => .error (.notFound movement_in.product_id)
  | some product =>
    if movement_in.movement_type = .salida ∧
        product.stock_actual < movement_in.quantity then
      .error (.insufficientStock movement_in.product_id)
    else
      .ok (create_movement s movement_in product.stock_actual)

/-- A found product carries the id it was looked up by. -/
theorem findProduct_id {s : DBState} {pid : Nat} {p : Product}
    (h : findProduct s pid = some p) : p.id = pid := by
  have := List.find?_some h
  simpa using this

/-- A found product is a row of the products table. -/
theorem findProduct_mem {s : DBState} {pid : Nat} {p : Product}
    (h : findProduct s pid = some p) : p ∈ s.products :=
  List.mem_of_find?_eq_some h

/-- A found order is a row of the orders table. -/
theorem findOrder_mem {s : DBState} {oid : Nat} {o : Order}
    (h : findOrder s oid = some o) : o ∈ s.orders :=
  List.mem_of_find?_eq_some h

/-- Appending to the ledger leaves product lookups unchanged. -/
theorem findProduct_addMovement (s : DBState) (m : StockMovement) (q : Nat) :
    findProduct (addMovement s m) q = findProduct s q := rfl

/-- Stock updates leave the ledger unchanged. -/
theorem movements_updateStock (s : DBState) (pid : Nat) (v : Int) :
    (updateStock s pid v).movements = s.movements := rfl

/-- Stock updates leave the orders table unchanged. -/
theorem orders_updateStock (s : DBState) (pid : Nat) (v : Int) :
    (updateStock s pid v).orders = s.orders := rfl

/-- Ledger appends leave the orders table unchanged. -/
theorem orders_addMovement (s : DBState) (m : StockMovement) :
    (addMovement s m).orders = s.orders := rfl

/-- Ledger append, spelled on the movements field. -/
theorem movements_addMovement (s : DBState) (m : StockMovement) :
    (addMovement s m).movements = s.movements ++ [m] := rfl

/-- Effect of a stock update on an arbitrary product lookup. -/
theorem findProduct_updateStock (s : DBState) (pid : Nat) (v : Int) (q : Nat) :
    findProduct (updateStock s pid v) q =
      (findProduct s q).map
        (fun p => if p.id = pid then { p with stock_actual := v } else p) := by
  unfold findProduct updateStock
  rw [List.find?_map]
  have hp : ((fun p : Product => p.id == q) ∘
      fun p => if p.id = pid then { p with stock_actual := v } else p) =
      (fun p : Product => p.id == q) := by
    funext x
    by_cases hx : x.id = pid <;> simp [hx, Function.comp]
  rw [hp]

/-- Effect of a stock update on a lookup, keyed on the looked-up id rather
than on the id of the row. -/
theorem findProduct_updateStock_key (s : DBState) (pid : Nat) (v : Int)
    (q : Nat) :
    findProduct (updateStock s pid v) q =
      (findProduct s q).map
        (fun p => if q = pid then { p with stock_actual := v } else p) := by
  rw [findProduct_updateStock]
  cases hq : findProduct s q with
  | none => rfl
  | some p =>
    have hid : p.id = q := findProduct_id hq
    simp [hid]

/-- Sum of the quantities that a request asks for one given product. -/
def totalQty : List OrderItemCreate → Nat → Int
  | [], _ => 0
  | it :: rest, pid =>
    (if it.product_id = pid then it.quantity else 0) + totalQty rest pid

/-- Sum of the quantities of the line items of an order for one product. -/
def totalItemQty : List OrderItem → Nat → Int
  | [], _ => 0
  | it :: rest, pid =>
    (if it.product_id = pid then it.quantity else 0) + totalItemQty rest pid

/-- Rejection condition of one requested line against a state: the product
is missing, or the requested quantity strictly exceeds its current stock. -/
def itemRejected (s : DBState) (it : OrderItemCreate) : Prop :=
  match findProduct s it.product_id with
  | none => True
  | some p => p.stock_actual < it.quantity

instance (s : DBState) (it : OrderItemCreate) :
    Decidable (itemRejected s it) := by
  unfold itemRejected
  cases findProduct s it.product_id with
  | none => exact inferInstanceAs (Decidable True)
  | some p => exact inferInstanceAs (Decidable (_ < _))

/-- Per-index specification of the outbound movements appended by the
create_order loop: the i-th movement belongs to the i-th requested line,
is outbound, carries the requested quantity, brackets the running stock of
the product (its initial stock minus what earlier lines of the same request
already took), and references the order number. -/
def outboundMoveSpec (s : DBState) (orderNumber : String) (userId : Nat)
    (items : List OrderItemCreate) (movs : List StockMovement) : Prop :=
  movs.length = items.length ∧
  ∀ i (hi : i < items.length) (hm : i < movs.length), ∃ p,
    findProduct s items[i].product_id = some p ∧
    movs[i] =
      { product_id := items[i].product_id
        movement_type := .salida
        quantity := items[i].quantity
        stock_before := p.stock_actual -
          totalQty (items.take i) items[i].product_id
        stock_after := p.stock_actual -
          totalQty (items.take i) items[i].product_id -
          items[i].quantity
        reason := saleReason orderNumber
        notes := saleNotes userId }

/-- Per-index specification of the line items built by the loop: the i-th
line item belongs to the i-th requested line, snapshots the product price
as unit price, and has subtotal = unit price times quantity. -/
def lineItemsSpec (s : DBState) (items : List OrderItemCreate)
    (its : List OrderItem) : Prop :=
  its.length = items.length ∧
  ∀ i (hi : i < items.length) (h2 : i < its.length), ∃ p,
    findProduct s items[i].product_id = some p ∧
    its[i] =
      { product_id := items[i].product_id
        quantity := items[i].quantity
        unit_price := p.price
        subtotal := p.price * items[i].quantity }

/-- Unfolding equation of the loop on a non-empty request. -/
theorem create_order_items_cons (orderNumber : String) (userId : Nat)
    (s : DBState) (item : OrderItemCreate) (rest : List OrderItemCreate) :
    create_order_items orderNumber userId s (item :: rest) =
      match findProduct s item.product_id with
      | none => .error (.notFound item.product_id)
      | some product =>
        if product.stock_actual < item.quantity then
          .error (.insufficientStock item.product_id)
        else
          match create_order_items orderNumber userId
              (addMovement
                (updateStock s product.id
                  (product.stock_actual - item.quantity))
                { product_id := product.id
                  movement_type := .salida
                  quantity := item.quantity
                  stock_before := product.stock_actual
                  stock_after := product.stock_actual - item.quantity
                  reason := saleReason orderNumber
                  notes := saleNotes userId }) rest with
          | .error e => .error e
          | .ok (sf, its, sub) =>
            .ok (sf,
              { product_id := product.id
                quantity := item.quantity
                unit_price := product.price
                subtotal := product.price * item.quantity } :: its,
              product.price * item.quantity + sub) := rfl

/-- Master lemma for a successful run of the create_order loop: the orders
table is untouched, every product stock drops by the total quantity the
request asks for it, the subtotal is the sum of the line item subtotals,
and the ledger is extended by exactly one outbound movement per line. -/
theorem create_order_items_ok_spec {orderNumber : String} {userId : Nat} :
    ∀ {items : List OrderItemCreate} {s sf : DBState} {its : List OrderItem}
      {sub : Int},
      create_order_items orderNumber userId s items = .ok (sf, its, sub) →
      sf.orders = s.orders ∧
      (∀ q, findProduct sf q = (findProduct s q).map
          (fun p => { p with
            stock_actual := p.stock_actual - totalQty items q })) ∧
      sub = (its.map OrderItem.subtotal).sum ∧
      lineItemsSpec s items its ∧
      ∃ movs, sf.movements = s.movements ++ movs ∧
        outboundMoveSpec s orderNumber userId items movs := by
  intro items
  induction items with
  | nil =>
    intro s sf its sub h
    simp only [create_order_items, Except.ok.injEq, Prod.mk.injEq] at h
    obtain ⟨rfl, rfl, rfl⟩ := h
    refine ⟨rfl, ?_, rfl, ⟨rfl, ?_⟩, [], by simp, rfl, ?_⟩
    · intro q
      cases findProduct s q <;> simp [totalQty]
    · intro i hi
      exact absurd hi (by simp)
    · intro i hi
      exact absurd hi (by simp)
  | cons item rest ih =>
    intro s sf its sub h
    rw [create_order_items_cons] at h
    cases hfp : findProduct s item.product_id with
    | none => simp [hfp] at h
    | some product =>
      have hid : product.id = item.product_id := findProduct_id hfp
      simp only [hfp] at h
      by_cases hlt : product.stock_actual < item.quantity
      · rw [if_pos hlt] at h
        exact absurd h (by simp)
      · rw [if_neg hlt] at h
        set mv0 : StockMovement :=
          { product_id := product.id
            movement_type := .salida
            quantity := item.quantity
            stock_before := product.stock_actual
            stock_after := product.stock_actual - item.quantity
            reason := saleReason orderNumber
            notes := saleNotes userId } with hmv0def
        set s2 := addMovement
          (updateStock s product.id (product.stock_actual - item.quantity))
          mv0 with hs2
        cases hrec : create_order_items orderNumber userId s2 rest with
        | error e => rw [hrec] at h; exact absurd h (by simp)
        | ok r =>
          obtain ⟨sf0, its0, sub0⟩ := r
          rw [hrec] at h
          simp only [Except.ok.injEq, Prod.mk.injEq] at h
          obtain ⟨rfl, hits, hsub⟩ := h
          obtain ⟨iho, ihst, ihsub, ihits, movs0, ihmv, ihms⟩ := ih hrec
          have hkey : ∀ q, findProduct s2 q = (findProduct s q).map
              (fun p => if q = item.product_id
                then { p with
                  stock_actual := product.stock_actual - item.quantity }
                else p) := by
            intro q
            rw [hs2, findProduct_addMovement, hid,
              findProduct_updateStock_key]
          refine ⟨?_, ?_, ?_, ?_, ?_⟩
          · rw [iho, hs2, orders_addMovement, orders_updateStock]
          · intro q
            rw [ihst, hkey, Option.map_map]
            cases hq : findProduct s q with
            | none => rfl
            | some p =>
              simp only [Option.map_some', Function.comp]
              by_cases hqq : q = item.product_id
              · subst hqq
                have hpp : p = product := by
                  rw [hq] at hfp
                  exact Option.some.inj hfp
                subst hpp
                rw [if_pos rfl]
                simp only [totalQty, Option.some.injEq, Product.mk.injEq,
                  if_true, eq_self_iff_true, true_and, and_true]
                omega
              · rw [if_neg hqq]
                simp only [totalQty, Option.some.injEq, Product.mk.injEq,
                  if_neg (Ne.symm hqq),
                  eq_self_iff_true, true_and, and_true]
                omega
          · subst hits
            subst hsub
            simp only [List.map_cons, List.sum_cons]
            rw [← ihsub]
          · subst hits
            obtain ⟨ihlen, ihget⟩ := ihits
            refine ⟨by simpa using ihlen, ?_⟩
            intro i hi h2
            cases i with
            | zero =>
              refine ⟨product, by simpa using hfp, ?_⟩
              simp only [List.getElem_cons_zero, hid]
            | succ j =>
              have hj : j < rest.length := by simpa using hi
              have hj2 : j < its0.length := by simpa using h2
              obtain ⟨p2, hp2, hitem⟩ := ihget j hj hj2
              rw [hkey] at hp2
              obtain ⟨p, hp, hgp⟩ := Option.map_eq_some'.mp hp2
              refine ⟨p, by simpa using hp, ?_⟩
              simp only [List.getElem_cons_succ]
              rw [hitem]
              have hprice : p2.price = p.price := by
                rw [← hgp]
                split <;> rfl
              rw [hprice]
          · refine ⟨mv0 :: movs0, ?_, ?_⟩
            · rw [ihmv, hs2, movements_addMovement, movements_updateStock]
              simp
            · obtain ⟨ihlen, ihget⟩ := ihms
              refine ⟨by simpa using ihlen, ?_⟩
              intro i hi hm
              cases i with
              | zero =>
                refine ⟨product, by simpa using hfp, ?_⟩
                simp only [List.getElem_cons_zero, hmv0def, hid, List.take_zero,
                  totalQty, StockMovement.mk.injEq,
                  eq_self_iff_true, true_and, and_true]
                omega
              | succ j =>
                have hj : j < rest.length := by simpa using hi
                have hjm : j < movs0.length := by simpa using hm
                obtain ⟨p2, hp2, hmv⟩ := ihget j hj hjm
                rw [hkey] at hp2
                obtain ⟨p, hp, hgp⟩ := Option.map_eq_some'.mp hp2
                refine ⟨p, by simpa using hp, ?_⟩
                simp only [List.getElem_cons_succ, List.take_succ_cons]
                rw [hmv]
                by_cases hc : rest[j].product_id = item.product_id
                · rw [if_pos hc] at hgp
                  have hpp : p = product := by
                    rw [hc] at hp
                    rw [hp] at hfp
                    exact Option.some.inj hfp
                  subst hpp
                  rw [← hgp]
                  simp only [totalQty, hc, StockMovement.mk.injEq, if_true,
                    eq_self_iff_true, true_and, and_true]
                  omega
                · rw [if_neg hc] at hgp
                  rw [← hgp]
                  simp only [totalQty, StockMovement.mk.injEq,
                    if_neg (Ne.symm hc),
                    eq_self_iff_true, true_and, and_true]
                  omega

/-- Master lemma for a rejected run of the create_order loop.  The running
state s is assumed reachable from the pre-call state s0 by stock decrements
only (same set of products, stocks bounded by their initial values); if some
requested line is rejected against the pre-call state, the loop fails, and
it reports not-found only for a product missing from the pre-call state and
insufficient stock only for a product present in it. -/
theorem create_order_items_err_spec {orderNumber : String} {userId : Nat} :
    ∀ {items : List OrderItemCreate} {s0 s : DBState},
      (∀ it ∈ items, 0 < it.quantity) →
      (∀ q, findProduct s q = none ↔ findProduct s0 q = none) →
      (∀ q pr, findProduct s q = some pr →
        ∃ p, findProduct s0 q = some p ∧ pr.stock_actual ≤ p.stock_actual) →
      (∃ it ∈ items, itemRejected s0 it) →
      ∃ e, create_order_items orderNumber userId s items = .error e ∧
        ((∃ pid, e = ServiceError.notFound pid ∧ findProduct s0 pid = none) ∨
         (∃ pid, e = ServiceError.insufficientStock pid ∧
           (findProduct s0 pid).isSome = true)) := by
  intro items
  induction items with
  | nil =>
    intro s0 s hq hnone hsome hbad
    obtain ⟨it, hmem, -⟩ := hbad
    exact absurd hmem (List.not_mem_nil it)
  | cons item rest ih =>
    intro s0 s hq hnone hsome hbad
    cases hfp : findProduct s item.product_id with
    | none =>
      refine ⟨.notFound item.product_id, ?_,
        .inl ⟨item.product_id, rfl, (hnone item.product_id).mp hfp⟩⟩
      simp [create_order_items_cons, hfp]
    | some product =>
      have hid : product.id = item.product_id := findProduct_id hfp
      obtain ⟨p0, hp0, hle⟩ := hsome item.product_id product hfp
      by_cases hlt : product.stock_actual < item.quantity
      · refine ⟨.insufficientStock item.product_id, ?_,
          .inr ⟨item.product_id, rfl, ?_⟩⟩
        · simp [create_order_items_cons, hfp, if_pos hlt]
        · rw [hp0]
          rfl
      · have hbad2 : ∃ it ∈ rest, itemRejected s0 it := by
          obtain ⟨it, hmem, hrej⟩ := hbad
          rcases List.mem_cons.mp hmem with hhd | htl
          · subst hhd
            exfalso
            simp only [itemRejected, hp0] at hrej
            have hqpos := hq _ (List.mem_cons_self _ rest)
            omega
          · exact ⟨it, htl, hrej⟩
        have hkey : ∀ q,
            findProduct (addMovement
              (updateStock s product.id
                (product.stock_actual - item.quantity))
              { product_id := product.id
                movement_type := .salida
                quantity := item.quantity
                stock_before := product.stock_actual
                stock_after := product.stock_actual - item.quantity
                reason := saleReason orderNumber
                notes := saleNotes userId }) q =
            (findProduct s q).map
              (fun p => if q = item.product_id
                then { p with
                  stock_actual := product.stock_actual - item.quantity }
                else p) := by
          intro q
          rw [findProduct_addMovement, hid, findProduct_updateStock_key]
        have hnone2 : ∀ q,
            findProduct (addMovement
              (updateStock s product.id
                (product.stock_actual - item.quantity))
              { product_id := product.id
                movement_type := .salida
                quantity := item.quantity
                stock_before := product.stock_actual
                stock_after := product.stock_actual - item.quantity
                reason := saleReason orderNumber
                notes := saleNotes userId }) q = none ↔
            findProduct s0 q = none := by
          intro q
          rw [hkey q, Option.map_eq_none']
          exact hnone q
        have hsome2 : ∀ q pr,
            findProduct (addMovement
              (updateStock s product.id
                (product.stock_actual - item.quantity))
              { product_id := product.id
                movement_type := .salida
                quantity := item.quantity
                stock_before := product.stock_actual
                stock_after := product.stock_actual - item.quantity
                reason := saleReason orderNumber
                notes := saleNotes userId }) q = some pr →
            ∃ p, findProduct s0 q = some p ∧
              pr.stock_actual ≤ p.stock_actual := by
          intro q pr h2
          rw [hkey q] at h2
          obtain ⟨pr0, hpr0, hg⟩ := Option.map_eq_some'.mp h2
          obtain ⟨p, hp, hle0⟩ := hsome q pr0 hpr0
          refine ⟨p, hp, ?_⟩
          by_cases hcq : q = item.product_id
          · subst hcq
            have hpp : pr0 = product := by
              rw [hpr0] at hfp
              exact Option.some.inj hfp
            subst hpp
            rw [if_pos rfl] at hg
            have hqpos := hq item (List.mem_cons_self item rest)
            rw [← hg]
            simp only []
            omega
          · rw [if_neg hcq] at hg
            rw [← hg]
            exact hle0
        have hq2 : ∀ it ∈ rest, 0 < it.quantity :=
          fun it hmem => hq it (List.mem_cons_of_mem item hmem)
        obtain ⟨e, herr, htax⟩ := ih hq2 hnone2 hsome2 hbad2
        refine ⟨e, ?_, htax⟩
        simp [create_order_items_cons, hfp, if_neg hlt, herr]

/-- Demo rows used to instantiate the hypothesised theorems at concrete
inputs. -/
def demoState : DBState :=
  { products := [{ id := 1, price := 5, stock_actual := 10 }]
    orders := []
    movements := [] }

/-- Demo request: three units of product 1. -/
def demoRequest : OrderCreate :=
  { items := [{ product_id := 1, quantity := 3 }] }

/-- Line item persisted by create_order on the demo state. -/
def demoItem : OrderItem :=
  { product_id := 1
    quantity := 3
    unit_price := 5
    subtotal := 15 }

/-- Outbound movement written by create_order on the demo state. -/
def demoMovement : StockMovement :=
  { product_id := 1
    movement_type := .salida
    quantity := 3
    stock_before := 10
    stock_after := 7
    reason := "Venta - Orden ORD-20250101120000-1"
    notes := "Orden de usuario 1" }

/-- Order produced by create_order on the demo state. -/
def demoOrder : Order :=
  { id := 1
    order_number := "ORD-20250101120000-1"
    user_id := 1
    status := .pending
    subtotal := 15
    tax := 0
    shipping_cost := 0
    total := 15
    order_items := [demoItem] }

/-- State produced by create_order on the demo state. -/
def demoFinal : DBState :=
  { products := [{ id := 1, price := 5, stock_actual := 7 }]
    orders := [demoOrder]
    movements := [demoMovement] }

/-- Demo state with too little stock for the demo rejection request. -/
def demoShortState : DBState :=
  { products := [{ id := 1, price := 5, stock_actual := 2 }]
    orders := []
    movements := [] }

/-- Demo request asking for more units than demoShortState has. -/
def demoBigRequest : OrderCreate :=
  { items := [{ product_id := 1, quantity := 5 }] }

/-- C1: a create_order call in which some requested line references a
missing product or asks for more than the current stock fails, the
committed state after the rolled-back transaction is exactly the pre-call
state (products, orders and ledger included), and the failure is a
not-found error for a genuinely missing product or an insufficient-stock
error for an existing one. -/
theorem create_order_rejected_rolls_back
    (s : DBState) (userId : Nat) (now : String) (order_in : OrderCreate)
    (hq : ∀ it ∈ order_in.items, 0 < it.quantity)
    (hbad : ∃ it ∈ order_in.items, itemRejected s it) :
    ∃ e, runTx s (create_order s userId now order_in) = (.error e, s) ∧
      ((∃ pid, e = ServiceError.notFound pid ∧ findProduct s pid = none) ∨
       (∃ pid, e = ServiceError.insufficientStock pid ∧
         (findProduct s pid).isSome = true)) := by
  obtain ⟨e, herr, htax⟩ :=
    @create_order_items_err_spec (orderNumberFor now userId) userId
      order_in.items s s hq (fun q => Iff.rfl)
      (fun q pr h2 => ⟨pr, h2, le_refl pr.stock_actual⟩) hbad
  refine ⟨e, ?_, htax⟩
  simp [create_order, runTx, herr]

/-- Witness for C1 at a concrete input: requesting five units of a product
with stock two is rejected and the state is unchanged. -/
theorem create_order_rejected_rolls_back_witness :
    ∃ e, runTx demoShortState
        (create_order demoShortState 1 "20250101120000" demoBigRequest) =
        (.error e, demoShortState) ∧
      ((∃ pid, e = ServiceError.notFound pid ∧
          findProduct demoShortState pid = none) ∨
       (∃ pid, e = ServiceError.insufficientStock pid ∧
         (findProduct demoShortState pid).isSome = true)) :=
  create_order_rejected_rolls_back demoShortState 1 "20250101120000"
    demoBigRequest (by decide) (by decide)

/-- C2: on a successful create_order call, every product stock drops by
exactly the total quantity the request asks for it, and the ledger is
extended by exactly one outbound movement per requested line, carrying the
requested quantity, bracketing the pre-decrement stock, and referencing the
order number of the created order. -/
theorem create_order_ok_stock_and_ledger
    (s : DBState) (userId : Nat) (now : String) (order_in : OrderCreate)
    (o : Order) (sf : DBState)
    (h : create_order s userId now order_in = .ok (o, sf)) :
    (∀ q, findProduct sf q = (findProduct s q).map
        (fun p => { p with
          stock_actual := p.stock_actual - totalQty order_in.items q })) ∧
    ∃ movs, sf.movements = s.movements ++ movs ∧
      outboundMoveSpec s o.order_number userId order_in.items movs := by
  simp only [create_order] at h
  cases hloop : create_order_items (orderNumberFor now userId) userId s
      order_in.items with
  | error e => rw [hloop] at h; exact absurd h (by simp)
  | ok r =>
    obtain ⟨s1, db_items, subtotal⟩ := r
    rw [hloop] at h
    simp only [Except.ok.injEq, Prod.mk.injEq] at h
    obtain ⟨ho, hsf⟩ := h
    obtain ⟨iho, ihst, ihsub, ihits, movs, ihmv, ihms⟩ :=
      create_order_items_ok_spec hloop
    subst ho
    subst hsf
    refine ⟨fun q => ihst q, movs, ihmv, ihms⟩

/-- Witness for C2 at a concrete input: ordering three units of a product
with stock ten leaves stock seven and one outbound movement 10 → 7. -/
theorem create_order_ok_stock_and_ledger_witness :
    (∀ q, findProduct demoFinal q = (findProduct demoState q).map
        (fun p => { p with
          stock_actual := p.stock_actual - totalQty demoRequest.items q })) ∧
    ∃ movs, demoFinal.movements = demoState.movements ++ movs ∧
      outboundMoveSpec demoState demoOrder.order_number 1
        demoRequest.items movs :=
  create_order_ok_stock_and_ledger demoState 1 "20250101120000" demoRequest
    demoOrder demoFinal (by decide)

/-- C4: on a successful create_order call, every line item subtotal is its
quantity times the unit price snapshotted from the product, the order
subtotal is the sum of the line item subtotals, tax and shipping cost are
zero, and total = subtotal + tax + shipping_cost = subtotal. -/
theorem create_order_ok_totals
    (s : DBState) (userId : Nat) (now : String) (order_in : OrderCreate)
    (o : Order) (sf : DBState)
    (h : create_order s userId now order_in = .ok (o, sf)) :
    o.subtotal = (o.order_items.map OrderItem.subtotal).sum ∧
    o.tax = 0 ∧
    o.shipping_cost = 0 ∧
    o.total = o.subtotal + o.tax + o.shipping_cost ∧
    o.total = o.subtotal ∧
    (∀ itm ∈ o.order_items,
      itm.subtotal = itm.unit_price * itm.quantity) ∧
    lineItemsSpec s order_in.items o.order_items := by
  simp only [create_order] at h
  cases hloop : create_order_items (orderNumberFor now userId) userId s
      order_in.items with
  | error e => rw [hloop] at h; exact absurd h (by simp)
  | ok r =>
    obtain ⟨s1, db_items, subtotal⟩ := r
    rw [hloop] at h
    simp only [Except.ok.injEq, Prod.mk.injEq] at h
    obtain ⟨ho, hsf⟩ := h
    obtain ⟨iho, ihst, ihsub, ihits, movs, ihmv, ihms⟩ :=
      create_order_items_ok_spec hloop
    subst ho
    subst hsf
    refine ⟨ihsub, rfl, rfl, rfl, by simp, ?_, ihits⟩
    intro itm hmem
    obtain ⟨i, hlen, hget⟩ := List.mem_iff_getElem.mp hmem
    obtain ⟨hlen2, hspec⟩ := ihits
    have hi : i < order_in.items.length := by
      rw [← hlen2]
      exact hlen
    obtain ⟨p, hp, hrec⟩ := hspec i hi hlen
    rw [← hget, hrec]

/-- Witness for C4 at a concrete input. -/
theorem create_order_ok_totals_witness :
    demoOrder.subtotal =
      (demoOrder.order_items.map OrderItem.subtotal).sum ∧
    demoOrder.tax = 0 ∧
    demoOrder.shipping_cost = 0 ∧
    demoOrder.total = demoOrder.subtotal + demoOrder.tax +
      demoOrder.shipping_cost ∧
    demoOrder.total = demoOrder.subtotal ∧
    (∀ itm ∈ demoOrder.order_items,
      itm.subtotal = itm.unit_price * itm.quantity) ∧
    lineItemsSpec demoState demoRequest.items demoOrder.order_items :=
  create_order_ok_totals demoState 1 "20250101120000" demoRequest
    demoOrder demoFinal (by decide)

/-- Line items of an order whose product still exists in the state; they
are exactly the items that update_status restocks on cancellation. -/
def existingItems (s : DBState) (items : List OrderItem) : List OrderItem :=
  items.filter (fun it => (findProduct s it.product_id).isSome)

/-- Per-index specification of the inbound movements appended on
cancellation restock: one movement per line item whose product still
exists, inbound, carrying the line quantity, bracketing the running stock
of the product and referencing the cancellation of the order. -/
def inboundMoveSpec (s : DBState) (orderNumber : String)
    (items : List OrderItem) (movs : List StockMovement) : Prop :=
  movs.length = (existingItems s items).length ∧
  ∀ i (hm : i < movs.length) (hf : i < (existingItems s items).length),
    ∃ p,
    findProduct s (existingItems s items)[i].product_id = some p ∧
    movs[i] =
      { product_id := (existingItems s items)[i].product_id
        movement_type := .entrada
        quantity := (existingItems s items)[i].quantity
        stock_before := p.stock_actual +
          totalItemQty ((existingItems s items).take i)
            (existingItems s items)[i].product_id
        stock_after := p.stock_actual +
          totalItemQty ((existingItems s items).take i)
            (existingItems s items)[i].product_id +
          (existingItems s items)[i].quantity
        reason := cancelReason orderNumber
        notes := cancelNotes }

/-- The inbound movement specification depends on the item list only
through the still-existing items, so it transports along equalities of
those. -/
theorem inboundMoveSpec_congr (s : DBState) (orderNumber : String)
    (items1 items2 : List OrderItem) (movs : List StockMovement)
    (hx : existingItems s items1 = existingItems s items2)
    (h : inboundMoveSpec s orderNumber items2 movs) :
    inboundMoveSpec s orderNumber items1 movs := by
  unfold inboundMoveSpec at h ⊢
  simp only [hx]
  exact h

/-- Master lemma for the cancellation restock fold: the orders table is
untouched, every product stock grows by the total quantity of the order
line items that reference it (items with a missing product are skipped
silently), and the ledger is extended by exactly one inbound movement per
still-existing line item. -/
theorem restock_foldl_spec (orderNumber : String) :
    ∀ (items : List OrderItem) (s : DBState),
      (items.foldl (restock_item orderNumber) s).orders = s.orders ∧
      (∀ q, findProduct (items.foldl (restock_item orderNumber) s) q =
        (findProduct s q).map
          (fun p => { p with
            stock_actual := p.stock_actual + totalItemQty items q })) ∧
      ∃ movs, (items.foldl (restock_item orderNumber) s).movements =
          s.movements ++ movs ∧
        inboundMoveSpec s orderNumber items movs := by
  intro items
  induction items with
  | nil =>
    intro s
    refine ⟨rfl, ?_, [], by simp, rfl, ?_⟩
    · intro q
      simp only [List.foldl_nil]
      cases findProduct s q <;> simp [totalItemQty]
    · intro i hm
      exact absurd hm (by simp)
  | cons item rest ih =>
    intro s
    cases hfp : findProduct s item.product_id with
    | none =>
      have hstep : restock_item orderNumber s item = s := by
        unfold restock_item
        rw [hfp]
      have hfl : (item :: rest).foldl (restock_item orderNumber) s =
          rest.foldl (restock_item orderNumber) s := by
        rw [List.foldl_cons, hstep]
      have hex : existingItems s (item :: rest) = existingItems s rest := by
        unfold existingItems
        exact List.filter_cons_of_neg (by rw [hfp]; simp)
      obtain ⟨iho, ihst, movs, ihmv, ihms⟩ := ih s
      refine ⟨by rw [hfl, iho], ?_, movs, by rw [hfl, ihmv], ?_⟩
      · intro q
        rw [hfl, ihst q]
        cases hq : findProduct s q with
        | none => rfl
        | some p =>
          have hne : ¬ item.product_id = q := by
            intro hcq
            rw [hcq, hq] at hfp
            exact Option.noConfusion hfp
          simp only [Option.map_some', Option.some.injEq, totalItemQty,
            if_neg hne, Product.mk.injEq, eq_self_iff_true, true_and,
            and_true]
          omega
      · exact inboundMoveSpec_congr s orderNumber (item :: rest) rest
          movs hex ihms
    | some product =>
      set mvh : StockMovement :=
        { product_id := item.product_id
          movement_type := .entrada
          quantity := item.quantity
          stock_before := product.stock_actual
          stock_after := product.stock_actual + item.quantity
          reason := cancelReason orderNumber
          notes := cancelNotes } with hmvh
      have hstep : restock_item orderNumber s item =
          updateStock (addMovement s mvh) item.product_id
            (product.stock_actual + item.quantity) := by
        unfold restock_item
        rw [hfp]
      have hkey : ∀ q, findProduct (restock_item orderNumber s item) q =
          (findProduct s q).map
            (fun p => if q = item.product_id
              then { p with
                stock_actual := product.stock_actual + item.quantity }
              else p) := by
        intro q
        rw [hstep, findProduct_updateStock_key, findProduct_addMovement]
      have hfl : (item :: rest).foldl (restock_item orderNumber) s =
          rest.foldl (restock_item orderNumber)
            (restock_item orderNumber s item) := by
        rw [List.foldl_cons]
      have hex : existingItems s (item :: rest) =
          item :: existingItems s rest := by
        unfold existingItems
        exact List.filter_cons_of_pos (by rw [hfp]; rfl)
      have hexs : existingItems (restock_item orderNumber s item) rest =
          existingItems s rest := by
        unfold existingItems
        refine List.filter_congr ?_
        intro it2 hmem
        rw [hkey it2.product_id]
        cases findProduct s it2.product_id <;> rfl
      obtain ⟨iho, ihst, movs0, ihmv, ihms⟩ :=
        ih (restock_item orderNumber s item)
      refine ⟨?_, ?_, ?_⟩
      · rw [hfl, iho, hstep, orders_updateStock, orders_addMovement]
      · intro q
        rw [hfl, ihst q, hkey q, Option.map_map]
        cases hq : findProduct s q with
        | none => rfl
        | some p =>
          simp only [Option.map_some', Function.comp]
          by_cases hqq : q = item.product_id
          · subst hqq
            have hpp : p = product := by
              rw [hq] at hfp
              exact Option.some.inj hfp
            subst hpp
            rw [if_pos rfl]
            simp only [totalItemQty, Option.some.injEq, Product.mk.injEq,
              if_true, eq_self_iff_true, true_and, and_true]
            omega
          · rw [if_neg hqq]
            simp only [totalItemQty, Option.some.injEq, Product.mk.injEq,
              if_neg (Ne.symm hqq), eq_self_iff_true, true_and, and_true]
            omega
      · refine ⟨mvh :: movs0, ?_, ?_⟩
        · rw [hfl, ihmv, hstep, movements_updateStock,
            movements_addMovement]
          simp
        · obtain ⟨ihlen, ihget⟩ := ihms
          rw [hexs] at ihlen
          refine ⟨by rw [hex]; simpa using ihlen, ?_⟩
          intro i hm hf
          cases i with
          | zero =>
            refine ⟨product, ?_, ?_⟩
            · simp only [hex, List.getElem_cons_zero]
              exact hfp
            · simp only [hex, List.getElem_cons_zero, List.take_zero,
                totalItemQty, hmvh, StockMovement.mk.injEq,
                eq_self_iff_true, true_and, and_true]
              omega
          | succ j =>
            have hjm : j < movs0.length := by simpa using hm
            have hjf : j < (existingItems
                (restock_item orderNumber s item) rest).length := by
              rw [hexs]
              rw [hex] at hf
              simpa using hf
            obtain ⟨p2, hp2, hmv⟩ := ihget j hjm hjf
            simp only [hexs] at hp2 hmv
            rw [hkey] at hp2
            obtain ⟨p, hp, hgp⟩ := Option.map_eq_some'.mp hp2
            simp only [hex, List.getElem_cons_succ, List.take_succ_cons]
            refine ⟨p, hp, ?_⟩
            rw [hmv]
            by_cases hc : (existingItems s rest)[j].product_id =
                item.product_id
            · rw [if_pos hc] at hgp
              have hpp : p = product := by
                rw [hc] at hp
                rw [hp] at hfp
                exact Option.some.inj hfp
              subst hpp
              rw [← hgp]
              simp only [totalItemQty, hc, StockMovement.mk.injEq, if_true,
                eq_self_iff_true, true_and, and_true]
              omega
            · rw [if_neg hc] at hgp
              rw [← hgp]
              simp only [totalItemQty, StockMovement.mk.injEq,
                if_neg (Ne.symm hc), eq_self_iff_true, true_and, and_true]
              omega

/-- Unfolding equation of update_status when the order exists. -/
theorem update_status_found {s : DBState} {oid : Nat} {ord : Order}
    (h : findOrder s oid = some ord) (ns : OrderStatus) :
    update_status s oid ns =
      .ok ({ ord with status := ns },
        set_order_status
          (if ns = .cancelled ∧ ord.status ≠ .delivered
            then ord.order_items.foldl (restock_item ord.order_number) s
            else s) oid ns) := by
  unfold update_status
  rw [h]

/-- Line items of the order cancelled in the restock demos. -/
def demoCancelItemA : OrderItem :=
  { product_id := 1
    quantity := 3
    unit_price := 5
    subtotal := 15 }

/-- Second demo line item; its product does not exist any more. -/
def demoCancelItemB : OrderItem :=
  { product_id := 2
    quantity := 1
    unit_price := 5
    subtotal := 5 }

/-- Pending demo order used for the cancellation restock witness. -/
def demoCancelOrder : Order :=
  { id := 1
    order_number := "ORD-C-1"
    user_id := 1
    status := .pending
    subtotal := 20
    tax := 0
    shipping_cost := 0
    total := 20
    order_items := [demoCancelItemA, demoCancelItemB] }

/-- State holding the pending demo order; product 2 is missing. -/
def demoCancelState : DBState :=
  { products := [{ id := 1, price := 5, stock_actual := 7 }]
    orders := [demoCancelOrder]
    movements := [] }

/-- Already-cancelled demo order used for the idempotence witness. -/
def demoCancelledOrder : Order :=
  { id := 1
    order_number := "ORD-C-1"
    user_id := 1
    status := .cancelled
    subtotal := 20
    tax := 0
    shipping_cost := 0
    total := 20
    order_items := [demoCancelItemA, demoCancelItemB] }

/-- State holding the already-cancelled demo order. -/
def demoCancelledState : DBState :=
  { products := [{ id := 1, price := 5, stock_actual := 7 }]
    orders := [demoCancelledOrder]
    movements := [] }

/-- C3: cancelling an existing order that is not DELIVERED succeeds, sets
the status to CANCELLED, increments every still-existing product referenced
by the line items by the total line quantity (items whose product is gone
are skipped silently, without failing the call), and appends exactly one
inbound movement per still-existing line item, bracketing the running
stock; cancelling a DELIVERED order leaves products and ledger unchanged. -/
theorem cancel_restocks_unless_delivered
    (s : DBState) (oid : Nat) (ord : Order)
    (h : findOrder s oid = some ord) :
    (ord.status ≠ .delivered →
      ∃ o sf, update_status s oid .cancelled = .ok (o, sf) ∧
        o.status = .cancelled ∧
        (∀ q, findProduct sf q = (findProduct s q).map
          (fun p => { p with
            stock_actual := p.stock_actual +
              totalItemQty ord.order_items q })) ∧
        ∃ movs, sf.movements = s.movements ++ movs ∧
          inboundMoveSpec s ord.order_number ord.order_items movs) ∧
    (ord.status = .delivered →
      ∃ o sf, update_status s oid .cancelled = .ok (o, sf) ∧
        sf.products = s.products ∧ sf.movements = s.movements) := by
  constructor
  · intro hnd
    have hcond : OrderStatus.cancelled = OrderStatus.cancelled ∧
        ord.status ≠ OrderStatus.delivered := ⟨rfl, hnd⟩
    obtain ⟨ro, rst, movs, rmv, rms⟩ :=
      restock_foldl_spec ord.order_number ord.order_items s
    refine ⟨{ ord with status := .cancelled },
      set_order_status (ord.order_items.foldl
        (restock_item ord.order_number) s) oid .cancelled,
      ?_, rfl, ?_, movs, rmv, rms⟩
    · rw [update_status_found h, if_pos hcond]
    · intro q
      exact rst q
  · intro hd
    refine ⟨{ ord with status := .cancelled },
      set_order_status s oid .cancelled, ?_, rfl, rfl⟩
    rw [update_status_found h, if_neg (fun hcon => hcon.2 hd)]

/-- Witness for C3 at a concrete input: cancelling a pending order with one
existing and one vanished product restocks only the existing one. -/
theorem cancel_restocks_unless_delivered_witness :
    (demoCancelOrder.status ≠ .delivered →
      ∃ o sf, update_status demoCancelState 1 .cancelled = .ok (o, sf) ∧
        o.status = .cancelled ∧
        (∀ q, findProduct sf q = (findProduct demoCancelState q).map
          (fun p => { p with
            stock_actual := p.stock_actual +
              totalItemQty demoCancelOrder.order_items q })) ∧
        ∃ movs, sf.movements = demoCancelState.movements ++ movs ∧
          inboundMoveSpec demoCancelState demoCancelOrder.order_number
            demoCancelOrder.order_items movs) ∧
    (demoCancelOrder.status = .delivered →
      ∃ o sf, update_status demoCancelState 1 .cancelled = .ok (o, sf) ∧
        sf.products = demoCancelState.products ∧
        sf.movements = demoCancelState.movements) :=
  cancel_restocks_unless_delivered demoCancelState 1 demoCancelOrder
    (by decide)

/-- C9: cancelling an already-CANCELLED order runs the restock again: every
still-existing product referenced by the line items is incremented once
more and one further inbound movement per still-existing line item is
appended to the ledger. -/
theorem cancel_again_restocks_again
    (s : DBState) (oid : Nat) (ord : Order)
    (h : findOrder s oid = some ord) (hst : ord.status = .cancelled) :
    ∃ o sf, update_status s oid .cancelled = .ok (o, sf) ∧
      (∀ q p, findProduct s q = some p → findProduct sf q =
        some { p with stock_actual := p.stock_actual +
          totalItemQty ord.order_items q }) ∧
      ∃ movs, sf.movements = s.movements ++ movs ∧
        movs.length = (existingItems s ord.order_items).length ∧
        ∀ m ∈ movs, m.movement_type = .entrada := by
  have hnd : ord.status ≠ OrderStatus.delivered := by
    rw [hst]
    decide
  have hcond : OrderStatus.cancelled = OrderStatus.cancelled ∧
      ord.status ≠ OrderStatus.delivered := ⟨rfl, hnd⟩
  obtain ⟨ro, rst, movs, rmv, rms⟩ :=
    restock_foldl_spec ord.order_number ord.order_items s
  refine ⟨{ ord with status := .cancelled },
    set_order_status (ord.order_items.foldl
      (restock_item ord.order_number) s) oid .cancelled,
    ?_, ?_, movs, rmv, ?_, ?_⟩
  · rw [update_status_found h, if_pos hcond]
  · intro q p hq
    rw [show findProduct (set_order_status (ord.order_items.foldl
        (restock_item ord.order_number) s) oid .cancelled) q =
        findProduct (ord.order_items.foldl
          (restock_item ord.order_number) s) q from rfl,
      rst q, hq]
    rfl
  · exact rms.1
  · intro m hmem
    obtain ⟨i, hlen, hget⟩ := List.mem_iff_getElem.mp hmem
    obtain ⟨ilen, iget⟩ := rms
    have hf : i < (existingItems s ord.order_items).length := by
      rw [← ilen]
      exact hlen
    obtain ⟨p, hp, hrec⟩ := iget i hlen hf
    rw [← hget, hrec]

/-- Witness for C9 at a concrete input: re-cancelling the already-cancelled
demo order increments stock again and appends one more inbound movement. -/
theorem cancel_again_restocks_again_witness :
    ∃ o sf, update_status demoCancelledState 1 .cancelled = .ok (o, sf) ∧
      (∀ q p, findProduct demoCancelledState q = some p →
        findProduct sf q =
        some { p with stock_actual := p.stock_actual +
          totalItemQty demoCancelledOrder.order_items q }) ∧
      ∃ movs, sf.movements = demoCancelledState.movements ++ movs ∧
        movs.length = (existingItems demoCancelledState
          demoCancelledOrder.order_items).length ∧
        ∀ m ∈ movs, m.movement_type = .entrada :=
  cancel_again_restocks_again demoCancelledState 1 demoCancelledOrder
    (by decide) (by decide)

/-- C10: updating the status of an existing order to anything other than
CANCELLED changes nothing but that order's status field: the products and
the ledger are untouched, the returned order is the stored one with only
its status replaced, and the orders table is the old table with only that
order's status replaced. -/
theorem update_status_non_cancel_frame
    (s : DBState) (oid : Nat) (ord : Order) (ns : OrderStatus)
    (h : findOrder s oid = some ord) (hns : ns ≠ .cancelled) :
    update_status s oid ns =
      .ok ({ ord with status := ns },
        { s with orders := s.orders.map
                   (fun o => if o.id = oid then { o with status := ns }
                     else o) }) := by
  rw [update_status_found h, if_neg (fun hcon => hns hcon.1)]
  rfl

/-- Witness for C10 at a concrete input: confirming the pending demo order
only flips its status. -/
theorem update_status_non_cancel_frame_witness :
    update_status demoCancelState 1 .confirmed =
      .ok ({ demoCancelOrder with status := .confirmed },
        { demoCancelState with
          orders := demoCancelState.orders.map
                      (fun o => if o.id = 1
                        then { o with status := .confirmed } else o) }) :=
  update_status_non_cancel_frame demoCancelState 1 demoCancelOrder
    .confirmed (by decide) (by decide)

/-- Status reported back by update_status, none when the order is
missing; used to state how the implementation treats transitions. -/
def statusAfter (s : DBState) (oid : Nat) (ns : OrderStatus) :
    Option OrderStatus :=
  match update_status s oid ns with
  | .error _ => none
  | .ok (o, _) => some o.status

/-- Transition relation of the documented order state machine. -/
def allowedTransition (a b : OrderStatus) : Prop :=
  (a = .pending ∧ (b = .confirmed ∨ b = .cancelled)) ∨
  (a = .confirmed ∧ b = .shipped) ∨
  (a = .shipped ∧ b = .delivered)

/-- Delivered demo order used to exhibit a forbidden transition. -/
def demoDeliveredOrder : Order :=
  { id := 1
    order_number := "ORD-D-1"
    user_id := 1
    status := .delivered
    subtotal := 0
    tax := 0
    shipping_cost := 0
    total := 0
    order_items := [] }

/-- State holding the delivered demo order. -/
def demoDeliveredState : DBState :=
  { products := []
    orders := [demoDeliveredOrder]
    movements := [] }

/-- C5 counterevidence: update_status moves a DELIVERED order back to
PENDING even though no transition out of DELIVERED is permitted by the
documented state machine; the implementation never checks transitions. -/
theorem update_status_permits_forbidden_transition :
    statusAfter demoDeliveredState 1 .pending = some .pending ∧
    ¬ allowedTransition .delivered .pending := by
  constructor
  · decide
  · unfold allowedTransition
    decide

/-- Rejection condition of register_movement against a state: the product
is missing, or the movement is outbound and asks for more than the current
stock. -/
def movementRejected (s : DBState) (m : StockMovementCreate) : Prop :=
  match findProduct s m.product_id with
  | none => True
  | some p => m.movement_type = .salida ∧ p.stock_actual < m.quantity

instance (s : DBState) (m : StockMovementCreate) :
    Decidable (movementRejected s m) := by
  unfold movementRejected
  cases findProduct s m.product_id with
  | none => exact inferInstanceAs (Decidable True)
  | some p => exact inferInstanceAs (Decidable (_ ∧ _))

/-- Demo request for an inbound stock registration. -/
def demoMoveIn : StockMovementCreate :=
  { product_id := 1
    movement_type := .entrada
    quantity := 4
    reason := "Compra"
    notes := "Reposicion" }

/-- Ledger row written by the demo inbound registration. -/
def demoMoveInRow : StockMovement :=
  { product_id := 1
    movement_type := .entrada
    quantity := 4
    stock_before := 10
    stock_after := 14
    reason := "Compra"
    notes := "Reposicion" }

/-- State produced by the demo inbound registration. -/
def demoMoveInFinal : DBState :=
  { products := [{ id := 1, price := 5, stock_actual := 14 }]
    orders := []
    movements := [demoMoveInRow] }

/-- Demo outbound request asking for more than the available stock. -/
def demoMoveOutBig : StockMovementCreate :=
  { product_id := 1
    movement_type := .salida
    quantity := 12
    reason := "Venta manual"
    notes := "" }

/-- C6: a successful register_movement on an existing product writes a
movement whose stock_before is the current stock and whose stock_after adds
the quantity for inbound and adjustment movements and subtracts it for
outbound ones; the same transaction appends the row to the ledger and sets
the product stock to stock_after. -/
theorem register_movement_applies_delta
    (s : DBState) (m : StockMovementCreate) (p : Product)
    (mv : StockMovement) (sf : DBState)
    (hq : 0 < m.quantity)
    (hp : findProduct s m.product_id = some p)
    (h : register_movement s m = .ok (mv, sf)) :
    mv.product_id = m.product_id ∧
    mv.movement_type = m.movement_type ∧
    mv.quantity = m.quantity ∧
    mv.stock_before = p.stock_actual ∧
    (m.movement_type = .entrada →
      mv.stock_after = p.stock_actual + m.quantity) ∧
    (m.movement_type = .ajuste →
      mv.stock_after = p.stock_actual + m.quantity) ∧
    (m.movement_type = .salida →
      mv.stock_after = p.stock_actual - m.quantity) ∧
    sf.movements = s.movements ++ [mv] ∧
    findProduct sf m.product_id =
      some { p with stock_actual := mv.stock_after } ∧
    sf.orders = s.orders := by
  unfold register_movement at h
  simp only [hp] at h
  by_cases hcond : m.movement_type = .salida ∧
      p.stock_actual < m.quantity
  · rw [if_pos hcond] at h
    exact absurd h (by simp)
  · rw [if_neg hcond] at h
    simp only [create_movement, Except.ok.injEq, Prod.mk.injEq] at h
    obtain ⟨hmv, hsf⟩ := h
    subst hmv
    subst hsf
    refine ⟨rfl, rfl, rfl, rfl, ?_, ?_, ?_, rfl, ?_, rfl⟩
    · intro ht
      rw [ht]
    · intro ht
      rw [ht]
    · intro ht
      rw [ht]
    · rw [findProduct_updateStock_key, findProduct_addMovement, hp]
      simp

/-- Witness for C6 at a concrete input: an inbound movement of four units
moves stock 10 to 14. -/
theorem register_movement_applies_delta_witness :
    demoMoveInRow.product_id = demoMoveIn.product_id ∧
    demoMoveInRow.movement_type = demoMoveIn.movement_type ∧
    demoMoveInRow.quantity = demoMoveIn.quantity ∧
    demoMoveInRow.stock_before =
      (Product.mk 1 5 10).stock_actual ∧
    (demoMoveIn.movement_type = .entrada →
      demoMoveInRow.stock_after =
        (Product.mk 1 5 10).stock_actual + demoMoveIn.quantity) ∧
    (demoMoveIn.movement_type = .ajuste →
      demoMoveInRow.stock_after =
        (Product.mk 1 5 10).stock_actual + demoMoveIn.quantity) ∧
    (demoMoveIn.movement_type = .salida →
      demoMoveInRow.stock_after =
        (Product.mk 1 5 10).stock_actual - demoMoveIn.quantity) ∧
    demoMoveInFinal.movements = demoState.movements ++ [demoMoveInRow] ∧
    findProduct demoMoveInFinal demoMoveIn.product_id =
      some { Product.mk 1 5 10 with
        stock_actual := demoMoveInRow.stock_after } ∧
    demoMoveInFinal.orders = demoState.orders :=
  register_movement_applies_delta demoState demoMoveIn (Product.mk 1 5 10)
    demoMoveInRow demoMoveInFinal (by decide) (by decide) (by decide)

/-- C7: a register_movement call on a missing product, or an outbound
register_movement whose quantity exceeds the current stock, fails (with
not-found and insufficient-stock errors respectively) and leaves the
committed state exactly as it was: no stock change, no ledger row. -/
theorem register_movement_rejected_no_mutation
    (s : DBState) (m : StockMovementCreate)
    (hbad : movementRejected s m) :
    ∃ e, runTx s (register_movement s m) = (.error e, s) ∧
      ((e = ServiceError.notFound m.product_id ∧
        findProduct s m.product_id = none) ∨
       (e = ServiceError.insufficientStock m.product_id ∧
        (findProduct s m.product_id).isSome = true)) := by
  unfold movementRejected at hbad
  cases hfp : findProduct s m.product_id with
  | none =>
    refine ⟨.notFound m.product_id, ?_, .inl ⟨rfl, rfl⟩⟩
    simp [register_movement, runTx, hfp]
  | some p =>
    rw [hfp] at hbad
    obtain ⟨ht, hlt⟩ := hbad
    refine ⟨.insufficientStock m.product_id, ?_, .inr ⟨rfl, rfl⟩⟩
    simp [register_movement, runTx, hfp, ht, hlt]

/-- Witness for C7 at a concrete input: an outbound movement of twelve
units against stock ten is rejected without mutation. -/
theorem register_movement_rejected_no_mutation_witness :
    ∃ e, runTx demoState (register_movement demoState demoMoveOutBig) =
        (.error e, demoState) ∧
      ((e = ServiceError.notFound demoMoveOutBig.product_id ∧
        findProduct demoState demoMoveOutBig.product_id = none) ∨
       (e = ServiceError.insufficientStock demoMoveOutBig.product_id ∧
        (findProduct demoState demoMoveOutBig.product_id).isSome = true)) :=
  register_movement_rejected_no_mutation demoState demoMoveOutBig
    (by decide)

/-- Signed stock change of one ledger row. -/
def movementDelta (t : StockMovementType) (q : Int) : Int :=
  match t with
  | .entrada => q
  | .salida => -q
  | .ajuste => q

/-- Well-formedness of one ledger row: positive quantity and stock_after =
stock_before plus quantity for inbound and adjustment rows, minus quantity
for outbound rows. -/
def movementConsistent (mv : StockMovement) : Prop :=
  0 < mv.quantity ∧
  mv.stock_after = mv.stock_before +
    movementDelta mv.movement_type mv.quantity

instance (mv : StockMovement) : Decidable (movementConsistent mv) := by
  unfold movementConsistent
  infer_instance

/-- Every ledger row of the state is well formed. -/
def ledgerConsistent (s : DBState) : Prop :=
  ∀ mv ∈ s.movements, movementConsistent mv

/-- Every stored order has only positive line item quantities (the create
schema enforces this on the way in). -/
def ordersPositive (s : DBState) : Prop :=
  ∀ o ∈ s.orders, ∀ it ∈ o.order_items, 0 < it.quantity

/-- Invariant carried across the modelled operations. -/
def stateInv (s : DBState) : Prop :=
  ledgerConsistent s ∧ ordersPositive s

instance (s : DBState) : Decidable (ledgerConsistent s) := by
  unfold ledgerConsistent
  infer_instance

instance (s : DBState) : Decidable (ordersPositive s) := by
  unfold ordersPositive
  infer_instance

instance (s : DBState) : Decidable (stateInv s) := by
  unfold stateInv
  infer_instance

/-- One committed service call.  The positivity side conditions are the
quantity constraints that the request schemas enforce before the services
run. -/
inductive Step : DBState → DBState → Prop
  | createOrder (s : DBState) (userId : Nat) (now : String)
      (order_in : OrderCreate)
      (hq : ∀ it ∈ order_in.items, 0 < it.quantity) :
      Step s (runTx s (create_order s userId now order_in)).2
  | updateStatus (s : DBState) (order_id : Nat)
      (new_status : OrderStatus) :
      Step s (runTx s (update_status s order_id new_status)).2
  | registerMovement (s : DBState) (movement_in : StockMovementCreate)
      (hq : 0 < movement_in.quantity) :
      Step s (runTx s (register_movement s movement_in)).2

/-- Each committed service call preserves the ledger and order-quantity
invariant. -/
theorem step_preserves_inv {s s2 : DBState}
    (hinv : stateInv s) (hstep : Step s s2) : stateInv s2 := by
  cases hstep with
  | createOrder userId now order_in hq =>
    cases hres : create_order s userId now order_in with
    | error e => exact hinv
    | ok r =>
      obtain ⟨o, sf⟩ := r
      show stateInv sf
      simp only [create_order] at hres
      cases hloop : create_order_items (orderNumberFor now userId) userId s
          order_in.items with
      | error e => rw [hloop] at hres; exact absurd hres (by simp)
      | ok r2 =>
        obtain ⟨s1, db_items, subtotal⟩ := r2
        rw [hloop] at hres
        simp only [Except.ok.injEq, Prod.mk.injEq] at hres
        obtain ⟨ho, hsf⟩ := hres
        subst hsf
        obtain ⟨iho, ihst, ihsub, ihits, movs, ihmv, ihms⟩ :=
          create_order_items_ok_spec hloop
        constructor
        · intro mv hmem
          have hmem1 : mv ∈ s1.movements := hmem
          rw [ihmv] at hmem1
          rcases List.mem_append.mp hmem1 with hold | hnew
          · exact hinv.1 mv hold
          · obtain ⟨i, hlen, hget⟩ := List.mem_iff_getElem.mp hnew
            obtain ⟨mlen, mget⟩ := ihms
            have hi : i < order_in.items.length := by
              rw [← mlen]
              exact hlen
            obtain ⟨p, hp, hrec⟩ := mget i hi hlen
            rw [← hget, hrec]
            refine ⟨hq _ (List.getElem_mem hi), ?_⟩
            unfold movementDelta
            dsimp only
            omega
        · intro o2 hmem it hit
          rcases List.mem_append.mp hmem with hold | hnew
          · rw [iho] at hold
            exact hinv.2 o2 hold it hit
          · have ho2 := List.mem_singleton.mp hnew
            subst ho2
            have hit2 : it ∈ db_items := hit
            obtain ⟨i, hlen, hget⟩ := List.mem_iff_getElem.mp hit2
            obtain ⟨llen, lget⟩ := ihits
            have hi : i < order_in.items.length := by
              rw [← llen]
              exact hlen
            obtain ⟨p, hp, hrec⟩ := lget i hi hlen
            rw [← hget, hrec]
            exact hq _ (List.getElem_mem hi)
  | updateStatus order_id new_status =>
    cases hfo : findOrder s order_id with
    | none =>
      have hrun : runTx s (update_status s order_id new_status) =
          (.error (.notFound order_id), s) := by
        simp [update_status, runTx, hfo]
      rw [hrun]
      exact hinv
    | some ord =>
      have hfound := update_status_found hfo new_status
      have hordmem : ord ∈ s.orders := findOrder_mem hfo
      by_cases hcond : new_status = OrderStatus.cancelled ∧
          ord.status ≠ OrderStatus.delivered
      · rw [if_pos hcond] at hfound
        have hrun : (runTx s (update_status s order_id new_status)).2 =
            set_order_status (ord.order_items.foldl
              (restock_item ord.order_number) s) order_id new_status := by
          rw [hfound]
          rfl
        rw [hrun]
        obtain ⟨ro, rst, movs, rmv, rms⟩ :=
          restock_foldl_spec ord.order_number ord.order_items s
        constructor
        · intro mv hmem
          have hmem1 : mv ∈ (ord.order_items.foldl
              (restock_item ord.order_number) s).movements := hmem
          rw [rmv] at hmem1
          rcases List.mem_append.mp hmem1 with hold | hnew
          · exact hinv.1 mv hold
          · obtain ⟨i, hlen, hget⟩ := List.mem_iff_getElem.mp hnew
            obtain ⟨mlen, mget⟩ := rms
            have hf : i < (existingItems s ord.order_items).length := by
              rw [← mlen]
              exact hlen
            obtain ⟨p, hp, hrec⟩ := mget i hlen hf
            rw [← hget, hrec]
            have hitem : (existingItems s ord.order_items)[i] ∈
                ord.order_items :=
              List.mem_of_mem_filter
                (List.getElem_mem hf)
            refine ⟨hinv.2 ord hordmem _ hitem, ?_⟩
            unfold movementDelta
            dsimp only
        · intro o hmem it hit
          have hmem1 : o ∈ ((ord.order_items.foldl
              (restock_item ord.order_number) s).orders.map
              (fun o2 => if o2.id = order_id
                then { o2 with status := new_status } else o2)) := hmem
          rw [ro] at hmem1
          obtain ⟨o0, ho0, hfo0⟩ := List.mem_map.mp hmem1
          have hitems : o.order_items = o0.order_items := by
            rw [← hfo0]
            by_cases hco : o0.id = order_id <;> simp [hco]
          rw [hitems] at hit
          exact hinv.2 o0 ho0 it hit
      · rw [if_neg hcond] at hfound
        have hrun : (runTx s (update_status s order_id new_status)).2 =
            set_order_status s order_id new_status := by
          rw [hfound]
          rfl
        rw [hrun]
        constructor
        · intro mv hmem
          exact hinv.1 mv hmem
        · intro o hmem it hit
          have hmem1 : o ∈ (s.orders.map
              (fun o2 => if o2.id = order_id
                then { o2 with status := new_status } else o2)) := hmem
          obtain ⟨o0, ho0, hfo0⟩ := List.mem_map.mp hmem1
          have hitems : o.order_items = o0.order_items := by
            rw [← hfo0]
            by_cases hco : o0.id = order_id <;> simp [hco]
          rw [hitems] at hit
          exact hinv.2 o0 ho0 it hit
  | registerMovement movement_in hq =>
    cases hfp : findProduct s movement_in.product_id with
    | none =>
      have hrun : runTx s (register_movement s movement_in) =
          (.error (.notFound movement_in.product_id), s) := by
        simp [register_movement, runTx, hfp]
      rw [hrun]
      exact hinv
    | some p =>
      by_cases hcond : movement_in.movement_type = .salida ∧
          p.stock_actual < movement_in.quantity
      · have hrun : runTx s (register_movement s movement_in) =
            (.error (.insufficientStock movement_in.product_id), s) := by
          simp [register_movement, runTx, hfp, if_pos hcond]
        rw [hrun]
        exact hinv
      · have hrun : (runTx s (register_movement s movement_in)).2 =
            (create_movement s movement_in p.stock_actual).2 := by
          simp [register_movement, runTx, hfp, if_neg hcond]
        rw [hrun]
        constructor
        · intro mv hmem
          have hmem1 : mv ∈ s.movements ++
              [(create_movement s movement_in p.stock_actual).1] := hmem
          rcases List.mem_append.mp hmem1 with hold | hnew
          · exact hinv.1 mv hold
          · have hmv := List.mem_singleton.mp hnew
            subst hmv
            refine ⟨hq, ?_⟩
            unfold create_movement movementDelta
            cases movement_in.movement_type <;> dsimp only <;> omega
        · intro o hmem it hit
          exact hinv.2 o hmem it hit

/-- C8: from any state satisfying the invariant (in particular the empty
initial database), every state reachable through committed service calls
has a ledger of well-formed rows only: positive quantity, and stock_after
= stock_before plus the quantity for inbound and adjustment movements and
minus it for outbound ones. -/
theorem reachable_ledger_consistent
    (s0 s : DBState) (hinv : stateInv s0)
    (hreach : Relation.ReflTransGen Step s0 s) :
    ∀ mv ∈ s.movements, movementConsistent mv := by
  have hs : stateInv s := by
    induction hreach with
    | refl => exact hinv
    | tail _ hstep ih => exact step_preserves_inv ih hstep
  exact hs.1

/-- Witness for C8: one registered inbound movement from the demo state
yields a consistent ledger. -/
theorem reachable_ledger_consistent_witness :
    ledgerConsistent (runTx demoState
      (register_movement demoState demoMoveIn)).2 :=
  reachable_ledger_consistent demoState
    (runTx demoState (register_movement demoState demoMoveIn)).2
    (by decide)
    (Relation.ReflTransGen.single
      (Step.registerMovement demoState demoMoveIn (by decide)))

end ECommerceSpec
